import Mathlib

/-!
# Pybind11Teste: entity / component / script-bridge core

A shallow embedding of the object model of the shared-ownership prototype
(`GameObject`, `Component`, `ScriptComponent`, `PyScriptWrapper`) and of the
raw-pointer prototype's bridge (`GameScript`), followed by the properties
established about them.

Conventions of the embedding.
* C++ `int` is `Int`.  Signed overflow is undefined behaviour in C++, so a
  statement about arithmetic over `Int` is a statement about runs without
  overflow, on which `int` arithmetic and `Int` arithmetic coincide.  `/` on
  `int` truncates towards zero: `Int.tdiv`.  Where overflow matters the overlap
  test is taken on 32-bit `int` with wrap-around (`IsColliding32`), which is the
  test over `Int` whenever nothing overflows (`IsColliding32_eq_of_noOverflow`).
* Heap objects are named by their index in an append-only store; a destroyed
  object leaves `none` behind.  A `std::shared_ptr` is an `Option` of such an
  index (`none` is the null pointer), a `std::weak_ptr` likewise (`none` is the
  empty pointer); locking a weak pointer whose target is destroyed gives null.
-/

set_option linter.unusedVariables false

namespace Pybind11Teste

/-- Index of a `GameObject` in the store. -/
abbrev ObjId := Nat

/-- Index of a `Component` in the store. -/
abbrev CompId := Nat

/-- Index of a `PyScriptWrapper` in the store. -/
abbrev WrapId := Nat

/-- The class `Vector2`: two `int` coordinates. -/
structure Vector2 where
  x : Int
  y : Int
deriving DecidableEq, Repr

/-- The container `std::unordered_map<int, std::shared_ptr<Component>>`: a
finite map with at most one entry per key. -/
abbrev ComponentMap := AList (fun _ : Int => CompId)

/-- The class `GameObject` (data members). -/
structure GameObject where
  position : Vector2
  scale : Vector2
  componentMap : ComponentMap
  active : Bool
  isUI : Bool
deriving DecidableEq

/-- The method `GameObject::IsColliding`. -/
def GameObject.IsColliding (self other : GameObject) : Bool :=
  let oPos := other.position
  let oScale := other.scale
  decide (self.position.x - self.scale.x.tdiv 2 ≤ oPos.x + oScale.x.tdiv 2) &&
  decide (self.position.x + self.scale.x.tdiv 2 ≥ oPos.x - oScale.x.tdiv 2) &&
  decide (self.position.y + self.scale.y.tdiv 2 ≥ oPos.y - oScale.y.tdiv 2) &&
  decide (self.position.y - self.scale.y.tdiv 2 ≤ oPos.y + oScale.y.tdiv 2)

/-- The constructor `GameObject::GameObject(posX, posY, width, height, isUI)`. -/
def GameObject.new (posX posY width height : Int) (isUI : Bool) : GameObject :=
  { position := ⟨posX, posY⟩, scale := ⟨width, height⟩, componentMap := ∅,
    active := true, isUI := isUI }

/-- The template argument of `GetTypeID<Key>`, `AddComponent<C>` and
`GetComponent<C>`: `Component`, `ScriptComponent`, or a further class derived
from `Component`. -/
inductive CompType where
  | Component
  | ScriptComponent
  | derived (n : Nat)
deriving DecidableEq, Repr

/-- The static state behind `GameObject::GetTypeID`: the counter `lastTypeID`
and, for every instantiation whose function-local static `id` has been
initialised, the value it holds. -/
structure TypeRegistry where
  lastTypeID : Int
  ids : List (CompType × Int)
deriving DecidableEq

/-- The value of the static `id` of `GetTypeID<Key>`, if already initialised. -/
def TypeRegistry.idOf : List (CompType × Int) → CompType → Option Int
  | [], _ => none
  | (k, i) :: rest, Key => if k = Key then some i else TypeRegistry.idOf rest Key

/-- The state at program start: `int GameObject::lastTypeID = 0`, no static
`id` initialised. -/
def TypeRegistry.initial : TypeRegistry := { lastTypeID := 0, ids := [] }

/-- The function `GameObject::GetTypeID<Key>()`:
`static const int id = lastTypeID++; return id;`. -/
def GameObject.GetTypeID (r : TypeRegistry) (Key : CompType) : Int × TypeRegistry :=
  match TypeRegistry.idOf r.ids Key with
  | some id => (id, r)
  | none => (r.lastTypeID, { lastTypeID := r.lastTypeID + 1, ids := (Key, r.lastTypeID) :: r.ids })

/-- Serving a sequence of `GetTypeID` requests, oldest first. -/
def TypeRegistry.serve (r : TypeRegistry) : List CompType → TypeRegistry
  | [] => r
  | Key :: rest => TypeRegistry.serve (GameObject.GetTypeID r Key).2 rest

/-- The data members a `ScriptComponent` adds to `Component`. -/
structure ScriptFields where
  moduleName : String
  className : String
  wrapper_ : Option WrapId
deriving DecidableEq

/-- The class `Component` together with its subclasses: `gameObject` is the
weak back-reference; `script` is present exactly for a `ScriptComponent`, and
absent for a component class that keeps the default `Component::Init`. -/
structure Component where
  gameObject : Option ObjId
  script : Option ScriptFields
deriving DecidableEq

/-- The class `PyScriptWrapper`: a weak reference to a `ScriptComponent`. -/
structure PyScriptWrapper where
  scriptComp : Option CompId
deriving DecidableEq

/-- A default-constructed `PyScriptWrapper`: its weak pointer is empty. -/
def PyScriptWrapper.new : PyScriptWrapper := { scriptComp := none }

/-- The native state of a run: the three object stores and the static state of
`GetTypeID`. -/
structure World where
  objects : List (Option GameObject)
  components : List (Option Component)
  wrappers : List PyScriptWrapper
  registry : TypeRegistry
deriving DecidableEq

/-- The state at program start. -/
def World.initial : World :=
  { objects := [], components := [], wrappers := [], registry := TypeRegistry.initial }

/-- The live `GameObject` at an index, if any. -/
def World.object (w : World) (e : ObjId) : Option GameObject := (w.objects[e]?).join

/-- The live `Component` at an index, if any. -/
def World.component (w : World) (c : CompId) : Option Component := (w.components[c]?).join

/-- Overwrites the `GameObject` at an index. -/
def World.setObject (w : World) (e : ObjId) (g : GameObject) : World :=
  { w with objects := w.objects.set e (some g) }

/-- Overwrites the `Component` at an index. -/
def World.setComponent (w : World) (c : CompId) (comp : Component) : World :=
  { w with components := w.components.set c (some comp) }

/-- The call `std::weak_ptr<GameObject>::lock()`. -/
def World.lockObject (w : World) (p : Option ObjId) : Option ObjId :=
  match p with
  | none => none
  | some e => if (w.object e).isSome then some e else none

/-- The call `std::weak_ptr<ScriptComponent>::lock()`. -/
def World.lockComponent (w : World) (p : Option CompId) : Option CompId :=
  match p with
  | none => none
  | some c => if (w.component c).isSome then some c else none

/-- How a call ends: it returns a value, a C++ exception leaves it, or it
dereferences a null or dead pointer (undefined behaviour).  The first two carry
the state the call leaves behind. -/
inductive Outcome (α : Type) where
  | ok (val : α) (w : World)
  | raised (w : World)
  | undefined
deriving DecidableEq

/-- The state a call leaves behind, when it has defined behaviour. -/
def Outcome.world {α : Type} : Outcome α → Option World
  | .ok _ w => some w
  | .raised w => some w
  | .undefined => none

/-- The method `Component::SetParentGameObject`. -/
def Component.SetParentGameObject (w : World) (self : CompId) (g : Option ObjId) :
    Outcome Unit :=
  match w.component self with
  | none => .undefined
  | some comp => .ok () (w.setComponent self { comp with gameObject := g })

/-- The method `Component::GetGameObject`: `return gameObject.lock();`. -/
def Component.GetGameObject (w : World) (self : CompId) : Outcome (Option ObjId) :=
  match w.component self with
  | none => .undefined
  | some comp => .ok (w.lockObject comp.gameObject) w

/-- The factory `GameObject::Create`; the registration with the game manager
is commented out in the source, so `isPermanent` is not used. -/
def GameObject.Create (w : World) (posX posY width height : Int) (isUI : Bool)
    (isPermanent : Bool) : ObjId × World :=
  let ga := w.objects.length
  (ga, { w with objects := w.objects ++ [some (GameObject.new posX posY width height isUI)] })

/-- The factory `GameObject::CreateStandard`. -/
def GameObject.CreateStandard (w : World) (posX posY width height : Int) : ObjId × World :=
  GameObject.Create w posX posY width height false false

/-- The method `GameObject::GetComponent<C>`. -/
def GameObject.GetComponent (w : World) (self : ObjId) (C : CompType) :
    Outcome (Option CompId) :=
  match w.object self with
  | none => .undefined
  | some g =>
    let t := GameObject.GetTypeID w.registry C
    match g.componentMap.lookup t.1 with
    | none => .ok none { w with registry := t.2 }
    | some c => .ok (some c) { w with registry := t.2 }

/-- The method `PyScriptWrapper::SetScriptComponent`. -/
def PyScriptWrapper.SetScriptComponent (w : World) (self : WrapId) (sc : Option CompId) :
    Outcome Unit :=
  match w.wrappers[self]? with
  | none => .undefined
  | some _ => .ok () { w with wrappers := w.wrappers.set self { scriptComp := sc } }

/-- The method `PyScriptWrapper::GetGameObject`:
`return scriptComp.lock()->GetGameObject();`. -/
def PyScriptWrapper.GetGameObject (w : World) (self : WrapId) : Outcome (Option ObjId) :=
  match w.wrappers[self]? with
  | none => .undefined
  | some h =>
    match w.lockComponent h.scriptComp with
    | none => .undefined
    | some sc => Component.GetGameObject w sc

/-- One call that script code makes into the native side.  Scripts are not part
of the repository; what they can do to the native state is what
`PYBIND11_EMBEDDED_MODULE(engine, m)` binds: `Create` (both overloads), writing
`position` and `scale`, constructing a `ScriptBase`, and
`ScriptBase.GetGameObject`; `raise` is a script that ends in a Python error. -/
inductive PyCall where
  | Create (posX posY width height : Int) (isUI isPermanent : Bool)
  | CreateStandard (posX posY width height : Int)
  | setPosition (g : ObjId) (v : Vector2)
  | setScale (g : ObjId) (v : Vector2)
  | ScriptBase
  | GetGameObject (h : WrapId)
  | raise
deriving DecidableEq

/-- The effect of one bound call. -/
def PyCall.run (w : World) : PyCall → Outcome Unit
  | .Create posX posY width height isUI isPermanent =>
    .ok () (GameObject.Create w posX posY width height isUI isPermanent).2
  | .CreateStandard posX posY width height =>
    .ok () (GameObject.CreateStandard w posX posY width height).2
  | .setPosition g v =>
    match w.object g with
    | none => .undefined
    | some o => .ok () (w.setObject g { o with position := v })
  | .setScale g v =>
    match w.object g with
    | none => .undefined
    | some o => .ok () (w.setObject g { o with scale := v })
  | .ScriptBase => .ok () { w with wrappers := w.wrappers ++ [PyScriptWrapper.new] }
  | .GetGameObject h =>
    match PyScriptWrapper.GetGameObject w h with
    | .ok _ w1 => .ok () w1
    | .raised w1 => .raised w1
    | .undefined => .undefined
  | .raise => .raised w

/-- The effect of a script: its bound calls in order, up to the first that
does not return. -/
def runPy : List PyCall → World → Outcome Unit
  | [], w => .ok () w
  | call :: rest, w =>
    match call.run w with
    | .ok _ w1 => runPy rest w1
    | .raised w1 => .raised w1
    | .undefined => .undefined

/-- A script class as the native side sees it: the bound calls made while it
is imported and instantiated, whether the instance is a `ScriptBase` (so that
the cast to `std::shared_ptr<PyScriptWrapper>` succeeds), and the bound calls
made by its `Init` method. -/
structure PyClass where
  construct : List PyCall
  isScriptBase : Bool
  Init : List PyCall

/-- The foreign runtime: which script class a module name and a class name
resolve to; `none` when the import or the attribute lookup fails. -/
abbrev PyRuntime := String → String → Option PyClass

/-- The method `ScriptComponent::Init`: the class is resolved and instantiated,
the new object is cast to a `PyScriptWrapper` and bound to
`gameObject.lock()->GetComponent<ScriptComponent>()`, stored in `wrapper_`, and
its `Init` is called.  No bound call writes a component, so the data members
read on entry are the data members at each later use. -/
def ScriptComponent.Init (py : PyRuntime) (w : World) (self : CompId) : Outcome Unit :=
  match w.component self with
  | none => .undefined
  | some comp =>
    match comp.script with
    | none => .undefined
    | some sf =>
      match py sf.moduleName sf.className with
      | none => .raised w
      | some cls =>
        match runPy cls.construct w with
        | .undefined => .undefined
        | .raised w1 => .raised w1
        | .ok _ w1 =>
          if cls.isScriptBase then
            let sc := w1.wrappers.length
            let w2 := { w1 with wrappers := w1.wrappers ++ [PyScriptWrapper.new] }
            match w2.lockObject comp.gameObject with
            | none => .undefined
            | some g =>
              match GameObject.GetComponent w2 g CompType.ScriptComponent with
              | .undefined => .undefined
              | .raised w3 => .raised w3
              | .ok found w3 =>
                match PyScriptWrapper.SetScriptComponent w3 sc found with
                | .undefined => .undefined
                | .raised w4 => .raised w4
                | .ok _ w4 =>
                  runPy cls.Init
                    (w4.setComponent self { comp with script := some { sf with wrapper_ := some sc } })
          else .raised w1

/-- The virtual call `comp->Init()`: `ScriptComponent::Init` for a
`ScriptComponent`, the empty `Component::Init` otherwise. -/
def Component.Init (py : PyRuntime) (w : World) (self : CompId) : Outcome Unit :=
  match w.component self with
  | none => .undefined
  | some comp =>
    match comp.script with
    | none => .ok () w
    | some _ => ScriptComponent.Init py w self

/-- The statements of `GameObject::AddComponent<C>` that precede `comp->Init()`:
the back-reference is set, then `componentMap[GetTypeID<C>()] = comp`.  A null
`comp` is an index that holds no live component. -/
def GameObject.AddComponent_beforeInit (w : World) (self : ObjId) (C : CompType)
    (comp : CompId) : Outcome Unit :=
  match w.object self with
  | none => .undefined
  | some _ =>
    match Component.SetParentGameObject w comp (some self) with
    | .undefined => .undefined
    | .raised w1 => .raised w1
    | .ok _ w1 =>
      match w1.object self with
      | none => .undefined
      | some g =>
        let t := GameObject.GetTypeID w1.registry C
        .ok () ({ w1 with registry := t.2 }.setObject self
          { g with componentMap := g.componentMap.insert t.1 comp })

/-- The method `GameObject::AddComponent<C>`. -/
def GameObject.AddComponent (py : PyRuntime) (w : World) (self : ObjId) (C : CompType)
    (comp : CompId) : Outcome ObjId :=
  match GameObject.AddComponent_beforeInit w self C comp with
  | .undefined => .undefined
  | .raised w1 => .raised w1
  | .ok _ w1 =>
    match Component.Init py w1 comp with
    | .undefined => .undefined
    | .raised w2 => .raised w2
    | .ok _ w2 => .ok self w2

/-- The constructor `ScriptComponent::ScriptComponent(module, pyClass)`; the
inherited weak pointer and the wrapper object start empty. -/
def ScriptComponent.new (module pyClass : String) : Component :=
  { gameObject := none,
    script := some { moduleName := module, className := pyClass, wrapper_ := none } }

/-- The method `GameObject::Disable`. -/
def GameObject.Disable (w : World) (self : ObjId) : Outcome Unit :=
  match w.object self with
  | none => .undefined
  | some g => .ok () (w.setObject self { g with active := false })

/-- The method `GameObject::Enable`. -/
def GameObject.Enable (w : World) (self : ObjId) : Outcome Unit :=
  match w.object self with
  | none => .undefined
  | some g => .ok () (w.setObject self { g with active := true })

/-- One operation of the host program on the native state.  `makeComponent`
constructs a component (`std::make_shared<ScriptComponent>(module, pyClass)`
when names are given, a component of a class with the default `Init`
otherwise); `script` is script code running outside `Init` (at import, or from
a script's `Update`). -/
inductive Op where
  | Create (posX posY width height : Int) (isUI isPermanent : Bool)
  | CreateStandard (posX posY width height : Int)
  | makeComponent (names : Option (String × String))
  | AddComponent (e : ObjId) (C : CompType) (comp : CompId)
  | GetComponent (e : ObjId) (C : CompType)
  | Enable (e : ObjId)
  | Disable (e : ObjId)
  | script (calls : List PyCall)
deriving DecidableEq

/-- The state after one operation; a C++ exception is caught by the host (as
`main` does) and the run goes on from the state the call left; `none` when the
operation has undefined behaviour. -/
def Op.step (py : PyRuntime) (w : World) : Op → Option World
  | .Create posX posY width height isUI isPermanent =>
    some (GameObject.Create w posX posY width height isUI isPermanent).2
  | .CreateStandard posX posY width height =>
    some (GameObject.CreateStandard w posX posY width height).2
  | .makeComponent none =>
    some { w with components := w.components ++ [some { gameObject := none, script := none }] }
  | .makeComponent (some names) =>
    some { w with components := w.components ++ [some (ScriptComponent.new names.1 names.2)] }
  | .AddComponent e C comp => (GameObject.AddComponent py w e C comp).world
  | .GetComponent e C => (GameObject.GetComponent w e C).world
  | .Enable e => (GameObject.Enable w e).world
  | .Disable e => (GameObject.Disable w e).world
  | .script calls => (runPy calls w).world

/-- The state after a sequence of operations, oldest first. -/
def run (py : PyRuntime) : List Op → World → Option World
  | [], w => some w
  | op :: rest, w =>
    match op.step py w with
    | none => none
    | some w1 => run py rest w1

/-- The invariant of the static state of `GetTypeID`: every installed id is
below the counter, and no id is installed for two types. -/
def TypeRegistry.Inv (r : TypeRegistry) : Prop :=
  (∀ C i, TypeRegistry.idOf r.ids C = some i → i < r.lastTypeID) ∧
  (∀ C1 C2 i, TypeRegistry.idOf r.ids C1 = some i → TypeRegistry.idOf r.ids C2 = some i →
    C1 = C2)

/-- The component map of the live entity at an index, if any. -/
def World.mapOf (w : World) (e : ObjId) : Option ComponentMap :=
  (w.object e).map (fun g => g.componentMap)

/-- Between two states the component map of `E` is kept: it is the same, or `E`
did not exist before and has an empty map now. -/
def World.MapKept (E : ObjId) (w w1 : World) : Prop :=
  w1.mapOf E = w.mapOf E ∨ (w.mapOf E = none ∧ w1.mapOf E = some ∅)

/-- Between two states no component map is touched and the static state of
`GetTypeID` has only served requests. -/
def World.Kept (w w1 : World) : Prop :=
  (∃ reqs, w1.registry = w.registry.serve reqs) ∧ ∀ E, World.MapKept E w w1

/-- The foreign runtime of the examples: module `scripts.main` holds one class,
`GamePlayer`, a `ScriptBase` whose `Init` asks for its entity and moves it. -/
def Example.py : PyRuntime := fun module pyClass =>
  if module = "scripts.main" ∧ pyClass = "GamePlayer" then
    some { construct := [], isScriptBase := true,
           Init := [PyCall.GetGameObject 0, PyCall.setPosition 0 ⟨1, 2⟩] }
  else none

/-- The state of the examples: the entity `main` creates, one
`ScriptComponent` for `GamePlayer`, one component with the default `Init`, and
a second `ScriptComponent` whose class does not exist. -/
def Example.world : World :=
  { (GameObject.Create World.initial 10 10 5 5 false true).2 with
    components := [some (ScriptComponent.new "scripts.main" "GamePlayer"),
                   some { gameObject := none, script := none },
                   some (ScriptComponent.new "scripts.main" "Missing")] }

/-- The example state after `AddComponent<ScriptComponent>` of component 0 on
entity 0. -/
def Example.afterFirst : World :=
  ((GameObject.AddComponent Example.py Example.world 0 CompType.ScriptComponent 0).world).getD
    World.initial

/-- The example state after a further `AddComponent<ScriptComponent>` of
component 2 on entity 0. -/
def Example.afterSecond : World :=
  ((GameObject.AddComponent Example.py Example.afterFirst 0
    CompType.ScriptComponent 2).world).getD World.initial

/-- The invariant behind "no `AddComponent<C>` was ever performed on `E`": the
static state of `GetTypeID` is sound, every key of the map of `E` is below the
counter, and the id of `C`, once installed, is not a key of the map of `E`. -/
def World.NeverAttached (E : ObjId) (C : CompType) (w : World) : Prop :=
  w.registry.Inv ∧
  (∀ m, w.mapOf E = some m → ∀ k, k ∈ m → k < w.registry.lastTypeID) ∧
  (∀ m i, w.mapOf E = some m → TypeRegistry.idOf w.registry.ids C = some i → i ∉ m)

/-- An example run: two entities, a `GamePlayer` script component attached to
the first, a component with the default `Init` attached to the second under
`derived 3` and to the first under `Component`. -/
def Example.ops : List Op :=
  [Op.Create 10 10 5 5 false true,
   Op.makeComponent (some ("scripts.main", "GamePlayer")),
   Op.makeComponent none,
   Op.CreateStandard 0 0 1 1,
   Op.AddComponent 0 CompType.ScriptComponent 0,
   Op.AddComponent 1 (CompType.derived 3) 1,
   Op.AddComponent 0 CompType.Component 1,
   Op.GetComponent 0 CompType.ScriptComponent]

/-- The state the example run ends in. -/
def Example.final : World := (run Example.py Example.ops World.initial).getD World.initial

/-- The example state after the first attachment, with one more bridge handle,
freshly constructed. -/
def Example.bridge : World :=
  { Example.afterFirst with wrappers := Example.afterFirst.wrappers ++ [PyScriptWrapper.new] }

/-- The value a 32-bit `int` holds after an arithmetic result `n`: the
representative of `n` modulo `2^32` in `[-2^31, 2^31)`.  Signed overflow is
undefined behaviour in C++; two's-complement wrap-around, which is what the
compiled code computes, stands for it. -/
def wrap32 (n : Int) : Int := (n + 2147483648) % 4294967296 - 2147483648

/-- The values of a 32-bit `int`. -/
def InRange32 (n : Int) : Prop := -2147483648 ≤ n ∧ n ≤ 2147483647

/-- The method `GameObject::IsColliding` on 32-bit `int`: every sum and
difference it computes is held in an `int`. -/
def GameObject.IsColliding32 (self other : GameObject) : Bool :=
  let oPos := other.position
  let oScale := other.scale
  decide (wrap32 (self.position.x - self.scale.x.tdiv 2) ≤ wrap32 (oPos.x + oScale.x.tdiv 2)) &&
  decide (wrap32 (self.position.x + self.scale.x.tdiv 2) ≥ wrap32 (oPos.x - oScale.x.tdiv 2)) &&
  decide (wrap32 (self.position.y + self.scale.y.tdiv 2) ≥ wrap32 (oPos.y - oScale.y.tdiv 2)) &&
  decide (wrap32 (self.position.y - self.scale.y.tdiv 2) ≤ wrap32 (oPos.y + oScale.y.tdiv 2))

/-- No overflow in `self.IsColliding(other)`: each of the eight sums and
differences it computes is a value of `int`. -/
def GameObject.NoOverflow (self other : GameObject) : Prop :=
  (InRange32 (self.position.x - self.scale.x.tdiv 2) ∧
    InRange32 (other.position.x + other.scale.x.tdiv 2)) ∧
  (InRange32 (self.position.x + self.scale.x.tdiv 2) ∧
    InRange32 (other.position.x - other.scale.x.tdiv 2)) ∧
  (InRange32 (self.position.y + self.scale.y.tdiv 2) ∧
    InRange32 (other.position.y - other.scale.y.tdiv 2)) ∧
  (InRange32 (self.position.y - self.scale.y.tdiv 2) ∧
    InRange32 (other.position.y + other.scale.y.tdiv 2))

/-- An example state in which one component is already attached under the
base type: one entity, two components with the default `Init`, the first of
them attached to the entity by `AddComponent<Component>`. -/
def Example.shared : World :=
  (run Example.py
    [Op.Create 0 0 1 1 false false, Op.makeComponent none, Op.makeComponent none,
     Op.AddComponent 0 CompType.Component 0] World.initial).getD World.initial

/-- The state `Example.shared` after `AddComponent<derived 0>` of component 0 on
entity 0. -/
def Example.sharedFirst : World :=
  ((GameObject.AddComponent Example.py Example.shared 0 (CompType.derived 0) 0).world).getD
    World.initial

/-- The state `Example.sharedFirst` after a further `AddComponent<derived 0>` of
component 1 on entity 0. -/
def Example.sharedSecond : World :=
  ((GameObject.AddComponent Example.py Example.sharedFirst 0
    (CompType.derived 0) 1).world).getD World.initial

/-- The overlap test in the words of the specification: on each axis the
distance of the positions is at most the truncated half of the sum of the two
scales. -/
def IsColliding_spec (A B : GameObject) : Bool :=
  decide (|A.position.x - B.position.x| ≤ (A.scale.x + B.scale.x).tdiv 2) &&
  decide (|A.position.y - B.position.y| ≤ (A.scale.y + B.scale.y).tdiv 2)

/-! ## The raw-pointer prototype (`main.cpp`): `Component` and `GameScript` -/

namespace MainCpp

/-- The class `Component` of `main.cpp`: `gameObject` is a raw `GameObject*`;
`none` stands for a pointer that is null or was never assigned. -/
structure Component where
  gameObject : Option ObjId
deriving DecidableEq

/-- The class `GameScript`: `scriptComp` is a raw `ScriptComponent*`. -/
structure GameScript where
  scriptComp : Option CompId
deriving DecidableEq

/-- The components and bridge handles of a run of `main.cpp`. -/
structure World where
  components : List (Option Component)
  scripts : List GameScript
deriving DecidableEq

/-- The method `Component::SetParentGameObject`; `none` is undefined behaviour. -/
def Component.SetParentGameObject (w : World) (self : CompId) (g : Option ObjId) :
    Option World :=
  match (w.components[self]?).join with
  | none => none
  | some _ => some { w with components := w.components.set self (some { gameObject := g }) }

/-- The method `Component::GetGameObject`: `return gameObject;`. -/
def Component.GetGameObject (w : World) (self : CompId) : Option (Option ObjId) :=
  match (w.components[self]?).join with
  | none => none
  | some comp => some comp.gameObject

/-- The method `GameScript::SetScriptComponent`. -/
def GameScript.SetScriptComponent (w : World) (self : Nat) (sc : Option CompId) :
    Option World :=
  match w.scripts[self]? with
  | none => none
  | some _ => some { w with scripts := w.scripts.set self { scriptComp := sc } }

/-- The method `GameScript::GetGameObject`:
`return scriptComp->GetGameObject();`. -/
def GameScript.GetGameObject (w : World) (self : Nat) : Option (Option ObjId) :=
  match w.scripts[self]? with
  | none => none
  | some h =>
    match h.scriptComp with
    | none => none
    | some sc => Component.GetGameObject w sc

/-- An example state of `main.cpp`: one component whose parent is entity 0, and
one bridge handle whose pointer was never assigned. -/
def Example.world : World :=
  { components := [some { gameObject := some 0 }], scripts := [{ scriptComp := none }] }

end MainCpp

/-! ## Overlap test -/

/-- The four comparisons of `IsColliding`, axis by axis: the difference of the
positions lies between minus and plus the sum of the truncated half-extents. -/
theorem IsColliding_iff_bounds (A B : GameObject) :
    A.IsColliding B = true ↔
      (-(A.scale.x.tdiv 2 + B.scale.x.tdiv 2) ≤ A.position.x - B.position.x ∧
        A.position.x - B.position.x ≤ A.scale.x.tdiv 2 + B.scale.x.tdiv 2) ∧
      (-(A.scale.y.tdiv 2 + B.scale.y.tdiv 2) ≤ A.position.y - B.position.y ∧
        A.position.y - B.position.y ≤ A.scale.y.tdiv 2 + B.scale.y.tdiv 2) := by
  simp only [GameObject.IsColliding, Bool.and_eq_true, decide_eq_true_eq]
  constructor
  · rintro ⟨⟨⟨h1, h2⟩, h3⟩, h4⟩
    refine ⟨⟨?_, ?_⟩, ⟨?_, ?_⟩⟩ <;> omega
  · rintro ⟨⟨h1, h2⟩, ⟨h3, h4⟩⟩
    refine ⟨⟨⟨?_, ?_⟩, ?_⟩, ?_⟩ <;> omega

/-- C1, as amended: `A.IsColliding(B)` returns true if and only if on each axis
the distance of the positions is at most `A.scale/2 + B.scale/2`, each
half-extent truncated on its own. -/
theorem C1_IsColliding_iff_sum_of_truncated_halves (A B : GameObject) :
    A.IsColliding B = true ↔
      |A.position.x - B.position.x| ≤ A.scale.x.tdiv 2 + B.scale.x.tdiv 2 ∧
      |A.position.y - B.position.y| ≤ A.scale.y.tdiv 2 + B.scale.y.tdiv 2 := by
  rw [IsColliding_iff_bounds]
  constructor
  · rintro ⟨hx, hy⟩
    exact ⟨abs_le.mpr hx, abs_le.mpr hy⟩
  · rintro ⟨hx, hy⟩
    exact ⟨abs_le.mp hx, abs_le.mp hy⟩

/-- C1, as stated, fails: with both scales 3 and positions 3 apart on x, the
truncated half of the sum of the scales is 3, so the stated condition holds,
while each truncated half-extent is 1 and `IsColliding` returns false. -/
theorem C1_counterexample :
    (GameObject.new 0 0 3 3 false).IsColliding (GameObject.new 3 0 3 3 false) = false ∧
    IsColliding_spec (GameObject.new 0 0 3 3 false) (GameObject.new 3 0 3 3 false) = true := by
  constructor
  · decide
  · decide

/-- Without overflow a 32-bit `int` holds the arithmetic result itself. -/
theorem wrap32_of_inRange {n : Int} (h : InRange32 n) : wrap32 n = n := by
  obtain ⟨h1, h2⟩ := h
  unfold wrap32
  omega

/-- Without overflow the method on 32-bit `int` computes what the method on
unbounded integers computes. -/
theorem IsColliding32_eq_of_noOverflow {A B : GameObject} (h : A.NoOverflow B) :
    A.IsColliding32 B = A.IsColliding B := by
  obtain ⟨⟨h1, h2⟩, ⟨h3, h4⟩, ⟨h5, h6⟩, ⟨h7, h8⟩⟩ := h
  simp only [GameObject.IsColliding32, GameObject.IsColliding, wrap32_of_inRange h1,
    wrap32_of_inRange h2, wrap32_of_inRange h3, wrap32_of_inRange h4, wrap32_of_inRange h5,
    wrap32_of_inRange h6, wrap32_of_inRange h7, wrap32_of_inRange h8]

/-- C7, as amended: two entities at the same position, all four scale
components strictly positive, collide, provided none of the sums and
differences `position ± scale/2` that `IsColliding` computes overflows `int`. -/
theorem C7_same_position_positive_scale_collides_without_overflow (A B : GameObject)
    (hpos : A.position = B.position)
    (hA : 0 < A.scale.x ∧ 0 < A.scale.y) (hB : 0 < B.scale.x ∧ 0 < B.scale.y)
    (hno : A.NoOverflow B) :
    A.IsColliding32 B = true := by
  have ax : 0 ≤ A.scale.x.tdiv 2 := Int.tdiv_nonneg (le_of_lt hA.1) (by decide)
  have ay : 0 ≤ A.scale.y.tdiv 2 := Int.tdiv_nonneg (le_of_lt hA.2) (by decide)
  have bx : 0 ≤ B.scale.x.tdiv 2 := Int.tdiv_nonneg (le_of_lt hB.1) (by decide)
  have by_ : 0 ≤ B.scale.y.tdiv 2 := Int.tdiv_nonneg (le_of_lt hB.2) (by decide)
  rw [IsColliding32_eq_of_noOverflow hno, IsColliding_iff_bounds, hpos]
  simp only [sub_self]
  refine ⟨⟨?_, ?_⟩, ⟨?_, ?_⟩⟩ <;> omega

/-- C7 at a concrete pair: both at (5, -2), scales (1, 7) and (3, 1). -/
theorem C7_witness :
    (GameObject.new 5 (-2) 1 7 false).IsColliding32 (GameObject.new 5 (-2) 3 1 true) = true :=
  C7_same_position_positive_scale_collides_without_overflow (GameObject.new 5 (-2) 1 7 false)
    (GameObject.new 5 (-2) 3 1 true) rfl (by decide) (by decide)
    (by
      unfold GameObject.NoOverflow InRange32
      decide)

/-- C7, as stated, fails: two entities at the same position `(INT_MAX, 0)`, both
of scale `(2, 2)`.  `position.x + scale.x/2` overflows to `INT_MIN`, the first
comparison `INT_MAX - 1 <= INT_MIN` fails, and `IsColliding` returns false. -/
theorem C7_counterexample :
    (GameObject.new 2147483647 0 2 2 false).position =
      (GameObject.new 2147483647 0 2 2 false).position ∧
    (0 < (GameObject.new 2147483647 0 2 2 false).scale.x ∧
      0 < (GameObject.new 2147483647 0 2 2 false).scale.y) ∧
    wrap32 ((GameObject.new 2147483647 0 2 2 false).position.x +
      (GameObject.new 2147483647 0 2 2 false).scale.x.tdiv 2) = -2147483648 ∧
    (GameObject.new 2147483647 0 2 2 false).IsColliding32
      (GameObject.new 2147483647 0 2 2 false) = false := by
  refine ⟨rfl, ⟨by decide, by decide⟩, ?_, ?_⟩
  · decide
  · decide

/-- C8: if on the x axis or on the y axis the distance of the positions exceeds
the sum of the two truncated half-extents, `IsColliding` returns false. -/
theorem C8_separated_on_an_axis_not_colliding (A B : GameObject)
    (h : |A.position.x - B.position.x| > A.scale.x.tdiv 2 + B.scale.x.tdiv 2 ∨
         |A.position.y - B.position.y| > A.scale.y.tdiv 2 + B.scale.y.tdiv 2) :
    A.IsColliding B = false := by
  cases hc : A.IsColliding B with
  | false => rfl
  | true =>
    have hh := (IsColliding_iff_bounds A B).mp hc
    rcases h with h | h
    · exact absurd (abs_le.mpr hh.1) (not_le.mpr h)
    · exact absurd (abs_le.mpr hh.2) (not_le.mpr h)

/-- C8 at the pair of the specification: (0,0) and (10,10), both of scale (4,4). -/
theorem C8_witness :
    (GameObject.new 0 0 4 4 false).IsColliding (GameObject.new 10 10 4 4 false) = false :=
  C8_separated_on_an_axis_not_colliding (GameObject.new 0 0 4 4 false)
    (GameObject.new 10 10 4 4 false) (Or.inl (by decide))
/-! ## Type ids -/

theorem GetTypeID_of_idOf_some {r : TypeRegistry} {Key : CompType} {i : Int}
    (h : TypeRegistry.idOf r.ids Key = some i) : GameObject.GetTypeID r Key = (i, r) := by
  simp [GameObject.GetTypeID, h]

theorem GetTypeID_of_idOf_none {r : TypeRegistry} {Key : CompType}
    (h : TypeRegistry.idOf r.ids Key = none) :
    GameObject.GetTypeID r Key =
      (r.lastTypeID, { lastTypeID := r.lastTypeID + 1, ids := (Key, r.lastTypeID) :: r.ids }) := by
  simp [GameObject.GetTypeID, h]

/-- After a request for `Key` its id is installed, and is the value returned. -/
theorem idOf_GetTypeID_self (r : TypeRegistry) (Key : CompType) :
    TypeRegistry.idOf (GameObject.GetTypeID r Key).2.ids Key =
      some (GameObject.GetTypeID r Key).1 := by
  cases h : TypeRegistry.idOf r.ids Key with
  | some i => rw [GetTypeID_of_idOf_some h]; exact h
  | none => rw [GetTypeID_of_idOf_none h]; simp [TypeRegistry.idOf]

/-- An installed id survives every later request. -/
theorem idOf_GetTypeID_of_some {r : TypeRegistry} {C : CompType} {i : Int} (Key : CompType)
    (h : TypeRegistry.idOf r.ids C = some i) :
    TypeRegistry.idOf (GameObject.GetTypeID r Key).2.ids C = some i := by
  cases hk : TypeRegistry.idOf r.ids Key with
  | some j => rw [GetTypeID_of_idOf_some hk]; exact h
  | none =>
    rw [GetTypeID_of_idOf_none hk]
    have hne : Key ≠ C := by
      rintro rfl
      rw [hk] at h
      exact Option.noConfusion h
    simp [TypeRegistry.idOf, hne, h]

/-- A request for another type installs nothing for `C`. -/
theorem idOf_GetTypeID_of_ne {r : TypeRegistry} {C Key : CompType} (hne : Key ≠ C) :
    TypeRegistry.idOf (GameObject.GetTypeID r Key).2.ids C = TypeRegistry.idOf r.ids C := by
  cases hk : TypeRegistry.idOf r.ids Key with
  | some j => rw [GetTypeID_of_idOf_some hk]
  | none => rw [GetTypeID_of_idOf_none hk]; simp [TypeRegistry.idOf, hne]

theorem TypeRegistry.Inv_initial : TypeRegistry.initial.Inv := by
  constructor
  · intro C i h
    simp [TypeRegistry.initial, TypeRegistry.idOf] at h
  · intro C1 C2 i h
    simp [TypeRegistry.initial, TypeRegistry.idOf] at h

/-- The counter never decreases. -/
theorem lastTypeID_le_GetTypeID (r : TypeRegistry) (Key : CompType) :
    r.lastTypeID ≤ (GameObject.GetTypeID r Key).2.lastTypeID := by
  cases hk : TypeRegistry.idOf r.ids Key with
  | some j => rw [GetTypeID_of_idOf_some hk]
  | none => rw [GetTypeID_of_idOf_none hk]; simp

/-- A request keeps the invariant. -/
theorem TypeRegistry.Inv_GetTypeID {r : TypeRegistry} (hr : r.Inv) (Key : CompType) :
    (GameObject.GetTypeID r Key).2.Inv := by
  cases hk : TypeRegistry.idOf r.ids Key with
  | some j => rw [GetTypeID_of_idOf_some hk]; exact hr
  | none =>
    rw [GetTypeID_of_idOf_none hk]
    obtain ⟨hb, hi⟩ := hr
    constructor
    · intro C i h
      simp only [TypeRegistry.idOf] at h
      split at h
      · cases h; simp
      · have := hb C i h
        simp only
        omega
    · intro C1 C2 i h1 h2
      simp only [TypeRegistry.idOf] at h1 h2
      split at h1 <;> split at h2
      · rename_i e1 e2
        rw [← e1, ← e2]
      · cases h1
        exact absurd (hb C2 _ h2) (lt_irrefl _)
      · cases h2
        exact absurd (hb C1 _ h1) (lt_irrefl _)
      · exact hi C1 C2 i h1 h2

/-- The id returned by a request is below the counter afterwards. -/
theorem GetTypeID_lt_lastTypeID {r : TypeRegistry} (hr : r.Inv) (Key : CompType) :
    (GameObject.GetTypeID r Key).1 < (GameObject.GetTypeID r Key).2.lastTypeID :=
  (TypeRegistry.Inv_GetTypeID hr Key).1 Key _ (idOf_GetTypeID_self r Key)

theorem TypeRegistry.serve_append (r : TypeRegistry) (xs ys : List CompType) :
    r.serve (xs ++ ys) = (r.serve xs).serve ys := by
  induction xs generalizing r with
  | nil => rfl
  | cons x xs ih => simp [TypeRegistry.serve, ih]

theorem TypeRegistry.Inv_serve {r : TypeRegistry} (hr : r.Inv) (reqs : List CompType) :
    (r.serve reqs).Inv := by
  induction reqs generalizing r with
  | nil => exact hr
  | cons x xs ih => exact ih (TypeRegistry.Inv_GetTypeID hr x)

theorem idOf_serve_of_some {r : TypeRegistry} {C : CompType} {i : Int}
    (h : TypeRegistry.idOf r.ids C = some i) (reqs : List CompType) :
    TypeRegistry.idOf (r.serve reqs).ids C = some i := by
  induction reqs generalizing r with
  | nil => exact h
  | cons x xs ih => exact ih (idOf_GetTypeID_of_some x h)

theorem idOf_serve_of_not_mem {r : TypeRegistry} {C : CompType} (reqs : List CompType)
    (h : C ∉ reqs) : TypeRegistry.idOf (r.serve reqs).ids C = TypeRegistry.idOf r.ids C := by
  induction reqs generalizing r with
  | nil => rfl
  | cons x xs ih =>
    have hx : x ≠ C := fun e => h (by simp [e])
    have hxs : C ∉ xs := fun e => h (by simp [e])
    simp only [TypeRegistry.serve]
    rw [ih hxs, idOf_GetTypeID_of_ne hx]

/-- C4: starting from counter 0, the first request for a type `C` returns the
current counter value, installs it as the id of `C` and increments the counter;
every later request for `C`, whatever was requested in between, returns that
same id and leaves the static state as it is; and after any requests, two
distinct types requested one after the other receive different ids. -/
theorem C4_GetTypeID_installs_once_and_distinct (before after reqs : List CompType)
    (C C1 C2 : CompType) (hfirst : C ∉ before) (hne : C1 ≠ C2) :
    GameObject.GetTypeID (TypeRegistry.initial.serve before) C =
      ((TypeRegistry.initial.serve before).lastTypeID,
        { lastTypeID := (TypeRegistry.initial.serve before).lastTypeID + 1,
          ids := (C, (TypeRegistry.initial.serve before).lastTypeID) ::
            (TypeRegistry.initial.serve before).ids }) ∧
    GameObject.GetTypeID (TypeRegistry.initial.serve (before ++ C :: after)) C =
      ((TypeRegistry.initial.serve before).lastTypeID,
        TypeRegistry.initial.serve (before ++ C :: after)) ∧
    (GameObject.GetTypeID (TypeRegistry.initial.serve reqs) C1).1 ≠
      (GameObject.GetTypeID
        (GameObject.GetTypeID (TypeRegistry.initial.serve reqs) C1).2 C2).1 := by
  have h0 : TypeRegistry.idOf (TypeRegistry.initial.serve before).ids C = none := by
    rw [idOf_serve_of_not_mem before hfirst]; rfl
  refine ⟨GetTypeID_of_idOf_none h0, ?_, ?_⟩
  · apply GetTypeID_of_idOf_some
    rw [TypeRegistry.serve_append]
    simp only [TypeRegistry.serve]
    apply idOf_serve_of_some
    have := idOf_GetTypeID_self (TypeRegistry.initial.serve before) C
    rw [GetTypeID_of_idOf_none h0] at this ⊢
    exact this
  · have hinv := TypeRegistry.Inv_GetTypeID
      (TypeRegistry.Inv_serve TypeRegistry.Inv_initial reqs) C1
    have h1 := idOf_GetTypeID_self (TypeRegistry.initial.serve reqs) C1
    have h2 := idOf_GetTypeID_self
      (GameObject.GetTypeID (TypeRegistry.initial.serve reqs) C1).2 C2
    have h1' := idOf_GetTypeID_of_some C2 h1
    intro e
    rw [← e] at h2
    exact hne ((TypeRegistry.Inv_GetTypeID hinv C2).2 C1 C2 _ h1' h2)

/-- C4 on a concrete run: `ScriptComponent` is first requested after
`Component`, then again after two further requests; `Component` and
`derived 7` are requested after an unrelated sequence. -/
theorem C4_witness :
    GameObject.GetTypeID (TypeRegistry.initial.serve [CompType.Component])
        CompType.ScriptComponent =
      (1, { lastTypeID := 2,
            ids := [(CompType.ScriptComponent, 1), (CompType.Component, 0)] }) ∧
    (GameObject.GetTypeID
        (TypeRegistry.initial.serve
          ([CompType.Component] ++ CompType.ScriptComponent ::
            [CompType.derived 0, CompType.Component]))
        CompType.ScriptComponent).1 = 1 ∧
    (GameObject.GetTypeID (TypeRegistry.initial.serve [CompType.derived 7])
        CompType.Component).1 ≠
      (GameObject.GetTypeID
        (GameObject.GetTypeID (TypeRegistry.initial.serve [CompType.derived 7])
          CompType.Component).2 (CompType.derived 7)).1 := by
  have h := C4_GetTypeID_installs_once_and_distinct [CompType.Component]
    [CompType.derived 0, CompType.Component] [CompType.derived 7]
    CompType.ScriptComponent CompType.Component (CompType.derived 7) (by decide) (by decide)
  refine ⟨?_, ?_, h.2.2⟩
  · rw [h.1]; rfl
  · rw [h.2.1]; rfl

/-! ## Creation -/

/-- C6: `Create` always returns; the entity it returns is new and live, has
`active = true`, an empty component map, position `(x, y)` and scale `(w, h)`;
every entity that existed is left as it was; the result does not depend on
`isPermanent`; and `CreateStandard(x, y, w, h)` is `Create(x, y, w, h, false,
false)`. -/
theorem C6_Create_fresh_active_empty (w : World) (x y width height : Int)
    (isUI isPermanent : Bool) :
    w.object (GameObject.Create w x y width height isUI isPermanent).1 = none ∧
    (GameObject.Create w x y width height isUI isPermanent).2.object
        (GameObject.Create w x y width height isUI isPermanent).1 =
      some { position := ⟨x, y⟩, scale := ⟨width, height⟩, componentMap := ∅,
             active := true, isUI := isUI } ∧
    (∀ e g, w.object e = some g →
      (GameObject.Create w x y width height isUI isPermanent).2.object e = some g) ∧
    GameObject.Create w x y width height isUI isPermanent =
      GameObject.Create w x y width height isUI (!isPermanent) ∧
    GameObject.CreateStandard w x y width height =
      GameObject.Create w x y width height false false := by
  refine ⟨?_, ?_, ?_, rfl, rfl⟩
  · simp [GameObject.Create, World.object]
  · simp [GameObject.Create, World.object, GameObject.new]
  · intro e g h
    simp only [GameObject.Create, World.object] at h ⊢
    have hlt : e < w.objects.length := by
      by_contra hge
      rw [List.getElem?_eq_none (not_lt.mp hge)] at h
      simp at h
    rw [List.getElem?_append_left hlt]
    exact h

/-- C6 on a concrete state: a second entity is created next to an existing one,
which stays as it was. -/
theorem C6_witness :
    (GameObject.Create (GameObject.Create World.initial 10 10 5 5 false true).2
        1 2 3 4 true false).2.object 0 = some (GameObject.new 10 10 5 5 false) :=
  (C6_Create_fresh_active_empty (GameObject.Create World.initial 10 10 5 5 false true).2
    1 2 3 4 true false).2.2.1 0 (GameObject.new 10 10 5 5 false) rfl

/-! ## The stores -/

theorem World.object_lt {w : World} {e : ObjId} {g : GameObject} (h : w.object e = some g) :
    e < w.objects.length := by
  by_contra hge
  simp [World.object, List.getElem?_eq_none (not_lt.mp hge)] at h

theorem World.object_setObject {w : World} {e' : ObjId} {g0 : GameObject}
    (h : w.object e' = some g0) (g : GameObject) (e : ObjId) :
    (w.setObject e' g).object e = if e = e' then some g else w.object e := by
  have hlt := World.object_lt h
  simp only [World.object, World.setObject, List.getElem?_set]
  by_cases he : e = e'
  · subst he
    simp [hlt]
  · have hne : ¬ e' = e := fun x => he x.symm
    simp [hne, he]

theorem World.mapOf_of_object {w : World} {e : ObjId} {g : GameObject}
    (h : w.object e = some g) : w.mapOf e = some g.componentMap := by
  simp [World.mapOf, h]

theorem World.mapOf_eq_some {w : World} {e : ObjId} {m : ComponentMap}
    (h : w.mapOf e = some m) : ∃ g, w.object e = some g ∧ g.componentMap = m := by
  simp only [World.mapOf, Option.map_eq_some'] at h
  exact h

theorem World.MapKept.of_same (E : ObjId) (w : World) : World.MapKept E w w := Or.inl rfl

theorem World.MapKept.comp {E : ObjId} {w w1 w2 : World} (h1 : World.MapKept E w w1)
    (h2 : World.MapKept E w1 w2) : World.MapKept E w w2 := by
  rcases h1 with h1 | ⟨h1, h1'⟩ <;> rcases h2 with h2 | ⟨h2, h2'⟩
  · exact Or.inl (h2.trans h1)
  · exact Or.inr ⟨h1 ▸ h2, h2'⟩
  · exact Or.inr ⟨h1, h2.trans h1'⟩
  · rw [h1'] at h2
    exact Option.noConfusion h2

theorem World.MapKept.of_objects_eq {E : ObjId} {w w1 : World} (h : w1.objects = w.objects) :
    World.MapKept E w w1 := by
  left
  simp [World.mapOf, World.object, h]

theorem World.Kept.of_refl (w : World) : World.Kept w w :=
  ⟨⟨[], rfl⟩, fun E => World.MapKept.of_same E w⟩

theorem World.Kept.trans {w w1 w2 : World} (h1 : World.Kept w w1) (h2 : World.Kept w1 w2) :
    World.Kept w w2 := by
  obtain ⟨⟨r1, e1⟩, m1⟩ := h1
  obtain ⟨⟨r2, e2⟩, m2⟩ := h2
  refine ⟨⟨r1 ++ r2, ?_⟩, fun E => (m1 E).comp (m2 E)⟩
  rw [TypeRegistry.serve_append, ← e1, e2]

theorem World.Kept.of_eq {w w1 : World} (hr : w1.registry = w.registry)
    (ho : w1.objects = w.objects) : World.Kept w w1 :=
  ⟨⟨[], hr⟩, fun _ => World.MapKept.of_objects_eq ho⟩

/-- Overwriting a live entity by one with the same component map keeps every map. -/
theorem World.Kept.of_setObject {w : World} {e : ObjId} {g0 g : GameObject}
    (h : w.object e = some g0) (hm : g.componentMap = g0.componentMap) :
    World.Kept w (w.setObject e g) := by
  refine ⟨⟨[], rfl⟩, fun E => Or.inl ?_⟩
  simp only [World.mapOf, World.object_setObject h]
  by_cases he : E = e
  · subst he
    simp [h, hm]
  · simp [he]

/-- Creating an entity keeps every map. -/
theorem World.Kept.of_Create (w : World) (posX posY width height : Int) (isUI isPermanent : Bool) :
    World.Kept w (GameObject.Create w posX posY width height isUI isPermanent).2 := by
  refine ⟨⟨[], rfl⟩, fun E => ?_⟩
  simp only [World.MapKept, World.mapOf, World.object, GameObject.Create]
  rcases Nat.lt_trichotomy E w.objects.length with hlt | heq | hgt
  · left
    rw [List.getElem?_append_left hlt]
  · right
    subst heq
    simp [GameObject.new]
  · left
    rw [List.getElem?_append_right (le_of_lt hgt), List.getElem?_eq_none (le_of_lt hgt)]
    have : 1 ≤ E - w.objects.length := Nat.sub_pos_of_lt hgt
    rw [List.getElem?_eq_none (by simpa using this)]

/-! ## Calls that only read -/

theorem Component.GetGameObject_reads {w : World} {c : CompId} {w1 : World}
    (h : (Component.GetGameObject w c).world = some w1) : w1 = w := by
  unfold Component.GetGameObject at h
  split at h
  · exact Option.noConfusion h
  · simpa [Outcome.world] using h.symm

theorem PyScriptWrapper.GetGameObject_world {w : World} {H : WrapId} {v : World}
    (h : (PyScriptWrapper.GetGameObject w H).world = some v) : v = w := by
  unfold PyScriptWrapper.GetGameObject at h
  split at h
  · exact Option.noConfusion h
  · split at h
    · exact Option.noConfusion h
    · exact Component.GetGameObject_reads h

/-! ## Script calls keep the component maps and the type ids -/

theorem PyCall.run_kept {call : PyCall} {w w1 : World} (h : (call.run w).world = some w1) :
    World.Kept w w1 := by
  cases call with
  | Create posX posY width height isUI isPermanent =>
    simp only [PyCall.run, Outcome.world, Option.some.injEq] at h
    subst h
    exact World.Kept.of_Create w _ _ _ _ _ _
  | CreateStandard posX posY width height =>
    simp only [PyCall.run, Outcome.world, Option.some.injEq] at h
    subst h
    exact World.Kept.of_Create w _ _ _ _ _ _
  | setPosition g v =>
    simp only [PyCall.run] at h
    split at h
    · exact Option.noConfusion h
    · rename_i o ho
      simp only [Outcome.world, Option.some.injEq] at h
      subst h
      exact World.Kept.of_setObject ho rfl
  | setScale g v =>
    simp only [PyCall.run] at h
    split at h
    · exact Option.noConfusion h
    · rename_i o ho
      simp only [Outcome.world, Option.some.injEq] at h
      subst h
      exact World.Kept.of_setObject ho rfl
  | ScriptBase =>
    simp only [PyCall.run, Outcome.world, Option.some.injEq] at h
    subst h
    exact World.Kept.of_eq rfl rfl
  | GetGameObject H =>
    simp only [PyCall.run] at h
    split at h
    · rename_i v w2 hg
      simp only [Outcome.world, Option.some.injEq] at h
      subst h
      have := PyScriptWrapper.GetGameObject_world (v := w2) (by rw [hg]; rfl)
      subst this
      exact World.Kept.of_refl _
    · rename_i w2 hg
      simp only [Outcome.world, Option.some.injEq] at h
      subst h
      have := PyScriptWrapper.GetGameObject_world (v := w2) (by rw [hg]; rfl)
      subst this
      exact World.Kept.of_refl _
    · exact Option.noConfusion h
  | raise =>
    simp only [PyCall.run, Outcome.world, Option.some.injEq] at h
    subst h
    exact World.Kept.of_refl _

theorem runPy_kept {calls : List PyCall} {w w1 : World}
    (h : (runPy calls w).world = some w1) : World.Kept w w1 := by
  induction calls generalizing w with
  | nil =>
    simp only [runPy, Outcome.world, Option.some.injEq] at h
    subst h
    exact World.Kept.of_refl _
  | cons call rest ih =>
    simp only [runPy] at h
    split at h
    · rename_i v w2 hc
      exact (PyCall.run_kept (by rw [hc]; rfl)).trans (ih h)
    · rename_i w2 hc
      simp only [Outcome.world, Option.some.injEq] at h
      subst h
      exact PyCall.run_kept (by rw [hc]; rfl)
    · exact Option.noConfusion h

/-! ## Lookup, attachment and initialisation -/

theorem World.Kept.of_serve {w w1 : World} (reqs : List CompType)
    (hr : w1.registry = w.registry.serve reqs) (ho : w1.objects = w.objects) :
    World.Kept w w1 :=
  ⟨⟨reqs, hr⟩, fun _ => World.MapKept.of_objects_eq ho⟩

/-- On a live entity `GetComponent<C>` returns what the map holds under the id
of `C`, and changes nothing but the static state of `GetTypeID`. -/
theorem GameObject.GetComponent_eq {w : World} {E : ObjId} {g : GameObject} (C : CompType)
    (h : w.object E = some g) :
    GameObject.GetComponent w E C =
      .ok (g.componentMap.lookup (GameObject.GetTypeID w.registry C).1)
        { w with registry := (GameObject.GetTypeID w.registry C).2 } := by
  unfold GameObject.GetComponent
  rw [h]
  simp only
  cases hl : AList.lookup (GameObject.GetTypeID w.registry C).1 g.componentMap <;> rfl

theorem GameObject.GetComponent_kept {w : World} {E : ObjId} {C : CompType} {v : World}
    (h : (GameObject.GetComponent w E C).world = some v) : World.Kept w v := by
  cases hg : w.object E with
  | none =>
    unfold GameObject.GetComponent at h
    rw [hg] at h
    exact Option.noConfusion h
  | some g =>
    rw [GameObject.GetComponent_eq C hg] at h
    simp only [Outcome.world, Option.some.injEq] at h
    subst h
    exact World.Kept.of_serve [C] rfl rfl

theorem PyScriptWrapper.SetScriptComponent_kept {w : World} {H : WrapId} {sc : Option CompId}
    {v : World} (h : (PyScriptWrapper.SetScriptComponent w H sc).world = some v) :
    World.Kept w v := by
  unfold PyScriptWrapper.SetScriptComponent at h
  split at h
  · exact Option.noConfusion h
  · simp only [Outcome.world, Option.some.injEq] at h
    subst h
    exact World.Kept.of_eq rfl rfl

/-- Whatever the script does, `ScriptComponent::Init` touches no component map,
and the static state of `GetTypeID` only serves requests. -/
theorem ScriptComponent.Init_kept {py : PyRuntime} {w : World} {c : CompId} {w1 : World}
    (h : (ScriptComponent.Init py w c).world = some w1) : World.Kept w w1 := by
  unfold ScriptComponent.Init at h
  split at h
  · exact Option.noConfusion h
  · split at h
    · exact Option.noConfusion h
    · split at h
      · simp only [Outcome.world, Option.some.injEq] at h
        subst h
        exact World.Kept.of_refl _
      · split at h
        · exact Option.noConfusion h
        · rename_i w2 hc
          simp only [Outcome.world, Option.some.injEq] at h
          subst h
          exact runPy_kept (by rw [hc]; rfl)
        · rename_i v w2 hc
          have k1 : World.Kept w w2 := runPy_kept (by rw [hc]; rfl)
          split at h
          · dsimp only at h
            have k2 : World.Kept w2 { w2 with wrappers := w2.wrappers ++ [PyScriptWrapper.new] } :=
              World.Kept.of_eq rfl rfl
            split at h
            · exact Option.noConfusion h
            · split at h
              · exact Option.noConfusion h
              · rename_i w3 hg
                simp only [Outcome.world, Option.some.injEq] at h
                subst h
                exact k1.trans (k2.trans (GameObject.GetComponent_kept (by rw [hg]; rfl)))
              · rename_i found w3 hg
                have k3 := GameObject.GetComponent_kept (v := w3) (by rw [hg]; rfl)
                split at h
                · exact Option.noConfusion h
                · rename_i w4 hs
                  simp only [Outcome.world, Option.some.injEq] at h
                  subst h
                  exact k1.trans (k2.trans (k3.trans
                    (PyScriptWrapper.SetScriptComponent_kept (by rw [hs]; rfl))))
                · rename_i u w4 hs
                  have k4 := PyScriptWrapper.SetScriptComponent_kept (v := w4) (by rw [hs]; rfl)
                  have k5 := runPy_kept h
                  exact k1.trans (k2.trans (k3.trans (k4.trans
                    ((World.Kept.of_eq rfl rfl).trans k5))))
          · simp only [Outcome.world, Option.some.injEq] at h
            subst h
            exact k1

theorem Component.virtualInit_kept {py : PyRuntime} {w : World} {c : CompId} {w1 : World}
    (h : (Component.Init py w c).world = some w1) : World.Kept w w1 := by
  unfold Component.Init at h
  split at h
  · exact Option.noConfusion h
  · split at h
    · simp only [Outcome.world, Option.some.injEq] at h
      subst h
      exact World.Kept.of_refl _
    · exact ScriptComponent.Init_kept h

/-- A component with the default `Init` is initialised by doing nothing. -/
theorem Component.Init_default {py : PyRuntime} {w : World} {c : CompId} {comp : Component}
    (hc : w.component c = some comp) (hs : comp.script = none) :
    Component.Init py w c = .ok () w := by
  unfold Component.Init
  rw [hc]
  simp only [hs]

theorem World.component_setComponent {w : World} {c : CompId} {comp0 : Component}
    (h : w.component c = some comp0) (comp : Component) :
    (w.setComponent c comp).component c = some comp := by
  have hlt : c < w.components.length := by
    by_contra hge
    simp [World.component, List.getElem?_eq_none (not_lt.mp hge)] at h
  simp [World.component, World.setComponent, List.getElem?_set, hlt]

/-- The state in which `AddComponent<C>` on a live entity invokes `Init`. -/
theorem GameObject.AddComponent_beforeInit_eq {w : World} {E : ObjId} {g : GameObject}
    {c : CompId} {comp : Component} (C : CompType) (hE : w.object E = some g)
    (hc : w.component c = some comp) :
    GameObject.AddComponent_beforeInit w E C c =
      .ok () ({ (w.setComponent c { comp with gameObject := some E }) with
                  registry := (GameObject.GetTypeID w.registry C).2 }.setObject E
                { g with componentMap :=
                    g.componentMap.insert (GameObject.GetTypeID w.registry C).1 c }) := by
  unfold GameObject.AddComponent_beforeInit Component.SetParentGameObject
  rw [hE, hc]
  simp only
  have : (w.setComponent c { comp with gameObject := some E }).object E = some g := hE
  rw [this]
  rfl

/-- The statements before `Init` have defined behaviour only on a live entity
and a live component, and never raise. -/
theorem GameObject.AddComponent_beforeInit_world {w : World} {E : ObjId} {C : CompType}
    {c : CompId} {v : World}
    (h : (GameObject.AddComponent_beforeInit w E C c).world = some v) :
    ∃ g comp, w.object E = some g ∧ w.component c = some comp := by
  cases hE : w.object E with
  | none =>
    unfold GameObject.AddComponent_beforeInit at h
    rw [hE] at h
    exact Option.noConfusion h
  | some g =>
    cases hc : w.component c with
    | none =>
      unfold GameObject.AddComponent_beforeInit Component.SetParentGameObject at h
      rw [hE, hc] at h
      exact Option.noConfusion h
    | some comp => exact ⟨g, comp, rfl, rfl⟩

/-- A call of `AddComponent<C>` with defined behaviour is: the attachment on a
live entity and component, then an `Init` that keeps every component map. -/
theorem GameObject.AddComponent_world {py : PyRuntime} {w : World} {E : ObjId} {C : CompType}
    {c : CompId} {w2 : World} (h : (GameObject.AddComponent py w E C c).world = some w2) :
    ∃ g comp w1, w.object E = some g ∧ w.component c = some comp ∧
      GameObject.AddComponent_beforeInit w E C c = .ok () w1 ∧ World.Kept w1 w2 := by
  unfold GameObject.AddComponent at h
  split at h
  · exact Option.noConfusion h
  · rename_i w1 hb
    obtain ⟨g, comp, hE, hc⟩ :=
      GameObject.AddComponent_beforeInit_world (v := w1) (by rw [hb]; rfl)
    rw [GameObject.AddComponent_beforeInit_eq C hE hc] at hb
    exact Outcome.noConfusion hb
  · rename_i u w1 hb
    obtain ⟨g, comp, hE, hc⟩ :=
      GameObject.AddComponent_beforeInit_world (v := w1) (by rw [hb]; rfl)
    refine ⟨g, comp, w1, hE, hc, hb, ?_⟩
    split at h
    · exact Option.noConfusion h
    · rename_i w3 hi
      simp only [Outcome.world, Option.some.injEq] at h
      subst h
      exact Component.virtualInit_kept (by rw [hi]; rfl)
    · rename_i v w3 hi
      simp only [Outcome.world, Option.some.injEq] at h
      subst h
      exact Component.virtualInit_kept (by rw [hi]; rfl)

/-- What the statements before `Init` leave behind on a live entity and a live
component: the id of `C` is requested, the map of the entity gains the entry,
the component points back to the entity, nothing else moves. -/
theorem GameObject.AddComponent_beforeInit_spec {w : World} {E : ObjId} {g : GameObject}
    {c : CompId} {comp : Component} (C : CompType) (hE : w.object E = some g)
    (hc : w.component c = some comp) :
    ∃ w1, GameObject.AddComponent_beforeInit w E C c = .ok () w1 ∧
      w1.registry = (GameObject.GetTypeID w.registry C).2 ∧
      w1.object E =
        some { g with
          componentMap := g.componentMap.insert (GameObject.GetTypeID w.registry C).1 c } ∧
      (∀ e, e ≠ E → w1.object e = w.object e) ∧
      w1.component c = some { comp with gameObject := some E } := by
  refine ⟨_, GameObject.AddComponent_beforeInit_eq C hE hc, rfl, ?_, ?_, ?_⟩
  · have h0 : ({ (w.setComponent c { comp with gameObject := some E }) with
        registry := (GameObject.GetTypeID w.registry C).2 } : World).object E = some g := hE
    rw [World.object_setObject h0]
    simp
  · intro e he
    have h0 : ({ (w.setComponent c { comp with gameObject := some E }) with
        registry := (GameObject.GetTypeID w.registry C).2 } : World).object E = some g := hE
    rw [World.object_setObject h0]
    simp only [he, if_false]
    rfl
  · exact World.component_setComponent hc _

/-- A lookup under an id already installed returns the entry and changes nothing. -/
theorem GameObject.GetComponent_of_idOf {w : World} {E : ObjId} {g : GameObject}
    {C : CompType} {i : Int} (hE : w.object E = some g)
    (hi : TypeRegistry.idOf w.registry.ids C = some i) :
    GameObject.GetComponent w E C = .ok (g.componentMap.lookup i) w := by
  rw [GameObject.GetComponent_eq C hE, GetTypeID_of_idOf_some hi]

/-- C5: on a live entity `E` and a live component `c`, the statements of
`AddComponent<C>` that precede `c.Init()` return, and in the state on which
`Init` is then invoked the back-reference of `c` resolves to `E`, the map of
`E` holds `c` under the id of `C`, and `E.GetComponent<C>()` returns `c` without
changing the state, also after any calls a script has made in between.
`AddComponent` ends as that `Init` ends, returning `E` whenever `Init` returns;
with the default `Init` it always returns `E`. -/
theorem C5_AddComponent_binds_and_stores_before_Init (py : PyRuntime) (w : World)
    (E : ObjId) (C : CompType) (c : CompId) (g : GameObject) (comp : Component)
    (hE : w.object E = some g) (hc : w.component c = some comp) :
    ∃ w1, GameObject.AddComponent_beforeInit w E C c = .ok () w1 ∧
      Component.GetGameObject w1 c = .ok (some E) w1 ∧
      (∃ g1 i, w1.object E = some g1 ∧ TypeRegistry.idOf w1.registry.ids C = some i ∧
        g1.componentMap.lookup i = some c) ∧
      GameObject.GetComponent w1 E C = .ok (some c) w1 ∧
      (∀ calls v, (runPy calls w1).world = some v →
        GameObject.GetComponent v E C = .ok (some c) v) ∧
      GameObject.AddComponent py w E C c =
        (match Component.Init py w1 c with
          | .undefined => .undefined
          | .raised w2 => .raised w2
          | .ok _ w2 => .ok E w2) ∧
      (comp.script = none → GameObject.AddComponent py w E C c = .ok E w1) := by
  obtain ⟨w1, hb, hr, ho, -, hcomp⟩ := GameObject.AddComponent_beforeInit_spec C hE hc
  have hid : TypeRegistry.idOf w1.registry.ids C = some (GameObject.GetTypeID w.registry C).1 := by
    rw [hr]
    exact idOf_GetTypeID_self _ _
  have hlook : AList.lookup (GameObject.GetTypeID w.registry C).1
      (g.componentMap.insert (GameObject.GetTypeID w.registry C).1 c) = some c :=
    AList.lookup_insert _
  have hadd : GameObject.AddComponent py w E C c =
      (match Component.Init py w1 c with
        | .undefined => .undefined
        | .raised w2 => .raised w2
        | .ok _ w2 => .ok E w2) := by
    unfold GameObject.AddComponent
    rw [hb]
  refine ⟨w1, hb, ?_, ⟨_, _, ho, hid, hlook⟩, ?_, ?_, hadd, ?_⟩
  · unfold Component.GetGameObject
    rw [hcomp]
    simp [World.lockObject, ho]
  · rw [GameObject.GetComponent_of_idOf ho hid, hlook]
  · intro calls v hv
    obtain ⟨⟨reqs, hreg⟩, hmaps⟩ := runPy_kept hv
    have hm1 := World.mapOf_of_object ho
    have hm2 : v.mapOf E = w1.mapOf E := by
      rcases hmaps E with hk | ⟨hk, -⟩
      · exact hk
      · rw [hm1] at hk
        exact Option.noConfusion hk
    rw [hm1] at hm2
    obtain ⟨g2, hg2, hmap⟩ := World.mapOf_eq_some hm2
    have hid2 : TypeRegistry.idOf v.registry.ids C =
        some (GameObject.GetTypeID w.registry C).1 := by
      rw [hreg]
      exact idOf_serve_of_some hid reqs
    rw [GameObject.GetComponent_of_idOf hg2 hid2, hmap]
    exact congrArg (fun r => Outcome.ok r v) hlook
  · intro hs
    rw [hadd, Component.Init_default hcomp hs]

/-- C5 on the example state: the `GamePlayer` component is attached to the
entity as `main` does. -/
theorem C5_witness :
    ∃ w1, GameObject.AddComponent_beforeInit Example.world 0 CompType.ScriptComponent 0 =
        .ok () w1 ∧
      Component.GetGameObject w1 0 = .ok (some 0) w1 ∧
      (∃ g1 i, w1.object 0 = some g1 ∧
        TypeRegistry.idOf w1.registry.ids CompType.ScriptComponent = some i ∧
        g1.componentMap.lookup i = some 0) ∧
      GameObject.GetComponent w1 0 CompType.ScriptComponent = .ok (some 0) w1 ∧
      (∀ calls v, (runPy calls w1).world = some v →
        GameObject.GetComponent v 0 CompType.ScriptComponent = .ok (some 0) v) ∧
      GameObject.AddComponent Example.py Example.world 0 CompType.ScriptComponent 0 =
        (match Component.Init Example.py w1 0 with
          | .undefined => .undefined
          | .raised w2 => .raised w2
          | .ok _ w2 => .ok 0 w2) ∧
      ((ScriptComponent.new "scripts.main" "GamePlayer").script = none →
        GameObject.AddComponent Example.py Example.world 0 CompType.ScriptComponent 0 =
          .ok 0 w1) :=
  C5_AddComponent_binds_and_stores_before_Init Example.py Example.world 0
    CompType.ScriptComponent 0 (GameObject.new 10 10 5 5 false)
    (ScriptComponent.new "scripts.main" "GamePlayer") rfl rfl

/-! ## Attach, then look up -/

/-- After a call of `AddComponent<C>(c)` with defined behaviour, returned or
raised, the map of the entity is the old one with `c` under the id of `C`, and
that id is installed. -/
theorem GameObject.AddComponent_result {py : PyRuntime} {w : World} {E : ObjId}
    {C : CompType} {c : CompId} {w2 : World}
    (h : (GameObject.AddComponent py w E C c).world = some w2) :
    ∃ g g2, w.object E = some g ∧ w2.object E = some g2 ∧
      g2.componentMap = g.componentMap.insert (GameObject.GetTypeID w.registry C).1 c ∧
      TypeRegistry.idOf w2.registry.ids C = some (GameObject.GetTypeID w.registry C).1 := by
  obtain ⟨g, comp, w1, hE, hc, hb, ⟨reqs, hreg⟩, hmaps⟩ := GameObject.AddComponent_world h
  obtain ⟨w1', hb', hr, ho, -, -⟩ := GameObject.AddComponent_beforeInit_spec C hE hc
  rw [hb] at hb'
  injection hb' with _ hw
  subst hw
  have hm1 := World.mapOf_of_object ho
  have hm2 : w2.mapOf E = w1.mapOf E := by
    rcases hmaps E with hk | ⟨hk, -⟩
    · exact hk
    · rw [hm1] at hk
      exact Option.noConfusion hk
  rw [hm1] at hm2
  obtain ⟨g2, hg2, hmap⟩ := World.mapOf_eq_some hm2
  refine ⟨g, g2, hE, hg2, hmap, ?_⟩
  rw [hreg]
  apply idOf_serve_of_some
  rw [hr]
  exact idOf_GetTypeID_self _ _

/-- C2, as amended: let `c1` and `c2` be different components.  After
`E.AddComponent<C>(c1)` (returned, or left by an exception of the script),
`E.GetComponent<C>()` returns `c1` and changes nothing.  After a further
`E.AddComponent<C>(c2)`, `E.GetComponent<C>()` returns `c2`, the id of `C`
occurs exactly once among the keys of the map of `E` and leads to `c2`, and
every other key leads to what it led to before the two calls: `c1` is stored
exactly under the ids of other types under which it was stored before. -/
theorem C2_AddComponent_replaces_the_entry_of_C_only (py : PyRuntime) (w w1 w2 : World)
    (E : ObjId) (C : CompType) (c1 c2 : CompId) (hne : c1 ≠ c2)
    (h1 : (GameObject.AddComponent py w E C c1).world = some w1)
    (h2 : (GameObject.AddComponent py w1 E C c2).world = some w2) :
    GameObject.GetComponent w1 E C = .ok (some c1) w1 ∧
    GameObject.GetComponent w2 E C = .ok (some c2) w2 ∧
    ∃ m0 m2 i, w.mapOf E = some m0 ∧ w2.mapOf E = some m2 ∧
      TypeRegistry.idOf w2.registry.ids C = some i ∧
      m2.lookup i = some c2 ∧ m2.keys.count i = 1 ∧
      (∀ k, k ≠ i → m2.lookup k = m0.lookup k) ∧
      (∀ k, m2.lookup k = some c1 ↔ (k ≠ i ∧ m0.lookup k = some c1)) := by
  obtain ⟨g, g1, hE, hE1, hmap1, hid1⟩ := GameObject.AddComponent_result h1
  obtain ⟨g1', g2, hE1', hE2, hmap2, hid2⟩ := GameObject.AddComponent_result h2
  rw [hE1] at hE1'
  injection hE1' with hg
  subst hg
  rw [GetTypeID_of_idOf_some hid1] at hmap2 hid2
  simp only at hmap2 hid2
  have hl1 : g1.componentMap.lookup (GameObject.GetTypeID w.registry C).1 = some c1 := by
    rw [hmap1]; exact AList.lookup_insert _
  have hl2 : g2.componentMap.lookup (GameObject.GetTypeID w.registry C).1 = some c2 := by
    rw [hmap2]; exact AList.lookup_insert _
  have hframe : ∀ k, k ≠ (GameObject.GetTypeID w.registry C).1 →
      g2.componentMap.lookup k = g.componentMap.lookup k := by
    intro k hk
    rw [hmap2, AList.lookup_insert_ne hk, hmap1, AList.lookup_insert_ne hk]
  refine ⟨?_, ?_, g.componentMap, g2.componentMap, _, World.mapOf_of_object hE,
    World.mapOf_of_object hE2, hid2, hl2, ?_, hframe, ?_⟩
  · rw [GameObject.GetComponent_of_idOf hE1 hid1, hl1]
  · rw [GameObject.GetComponent_of_idOf hE2 hid2, hl2]
  · apply List.count_eq_one_of_mem g2.componentMap.keys_nodup
    rw [← AList.mem_keys, hmap2, AList.mem_insert]
    exact Or.inl rfl
  · intro k
    constructor
    · intro hk
      have hki : k ≠ (GameObject.GetTypeID w.registry C).1 := by
        rintro rfl
        rw [hl2] at hk
        injection hk with hk
        exact hne hk.symm
      exact ⟨hki, (hframe k hki) ▸ hk⟩
    · rintro ⟨hki, hk⟩
      rw [hframe k hki]
      exact hk

/-- C2 on the example state: the `GamePlayer` component, then the component of
the missing class (whose `Init` raises), are attached to the entity under
`ScriptComponent`. -/
theorem C2_witness :
    GameObject.GetComponent Example.afterFirst 0 CompType.ScriptComponent =
      .ok (some 0) Example.afterFirst ∧
    GameObject.GetComponent Example.afterSecond 0 CompType.ScriptComponent =
      .ok (some 2) Example.afterSecond ∧
    ∃ m0 m2 i, Example.world.mapOf 0 = some m0 ∧ Example.afterSecond.mapOf 0 = some m2 ∧
      TypeRegistry.idOf Example.afterSecond.registry.ids CompType.ScriptComponent = some i ∧
      m2.lookup i = some 2 ∧ m2.keys.count i = 1 ∧
      (∀ k, k ≠ i → m2.lookup k = m0.lookup k) ∧
      (∀ k, m2.lookup k = some 0 ↔ (k ≠ i ∧ m0.lookup k = some 0)) :=
  C2_AddComponent_replaces_the_entry_of_C_only Example.py Example.world Example.afterFirst
    Example.afterSecond 0 CompType.ScriptComponent 0 2 (by decide) rfl rfl

/-- C2, as stated, fails: component 0 is attached to entity 0 under `Component`
already.  `AddComponent<derived 0>` of component 0, then of component 1, both
return; afterwards `GetComponent<derived 0>` returns component 1, and component
0 is still stored in the map of the entity: `GetComponent<Component>` returns
it. -/
theorem C2_counterexample :
    GameObject.AddComponent Example.py Example.shared 0 (CompType.derived 0) 0 =
      .ok 0 Example.sharedFirst ∧
    GameObject.AddComponent Example.py Example.sharedFirst 0 (CompType.derived 0) 1 =
      .ok 0 Example.sharedSecond ∧
    GameObject.GetComponent Example.sharedSecond 0 (CompType.derived 0) =
      .ok (some 1) Example.sharedSecond ∧
    GameObject.GetComponent Example.sharedSecond 0 CompType.Component =
      .ok (some 0) Example.sharedSecond :=
  ⟨rfl, rfl, rfl, rfl⟩

/-! ## Lookup of a type never attached -/

theorem lastTypeID_le_serve (r : TypeRegistry) (reqs : List CompType) :
    r.lastTypeID ≤ (r.serve reqs).lastTypeID := by
  induction reqs generalizing r with
  | nil => exact le_refl _
  | cons x xs ih => exact le_trans (lastTypeID_le_GetTypeID r x) (ih _)

/-- An id installed by later requests is at least the counter before them. -/
theorem idOf_serve_new_ge {r : TypeRegistry} {C : CompType} {i : Int} (reqs : List CompType)
    (h0 : TypeRegistry.idOf r.ids C = none)
    (h : TypeRegistry.idOf (r.serve reqs).ids C = some i) : r.lastTypeID ≤ i := by
  induction reqs generalizing r with
  | nil =>
    rw [TypeRegistry.serve, h0] at h
    exact Option.noConfusion h
  | cons x xs ih =>
    simp only [TypeRegistry.serve] at h
    cases hx : TypeRegistry.idOf (GameObject.GetTypeID r x).2.ids C with
    | none => exact le_trans (lastTypeID_le_GetTypeID r x) (ih hx h)
    | some j =>
      rw [idOf_serve_of_some hx xs] at h
      injection h with h
      subst h
      by_cases hxC : x = C
      · subst hxC
        rw [GetTypeID_of_idOf_none h0] at hx
        simp only [TypeRegistry.idOf, if_true] at hx
        injection hx with hx
        exact le_of_eq hx
      · rw [idOf_GetTypeID_of_ne hxC, h0] at hx
        exact Option.noConfusion hx

theorem World.NeverAttached.at_start (E : ObjId) (C : CompType) :
    World.NeverAttached E C World.initial := by
  refine ⟨TypeRegistry.Inv_initial, ?_, ?_⟩
  · intro m hm
    simp [World.mapOf, World.object, World.initial] at hm
  · intro m i hm
    simp [World.mapOf, World.object, World.initial] at hm

/-- The invariant survives every change that keeps the map of `E` and only
serves requests for ids. -/
theorem World.NeverAttached.kept {E : ObjId} {C : CompType} {w w1 : World}
    (h : World.NeverAttached E C w) (hr : ∃ reqs, w1.registry = w.registry.serve reqs)
    (hm : World.MapKept E w w1) : World.NeverAttached E C w1 := by
  obtain ⟨hinv, hkeys, hC⟩ := h
  obtain ⟨reqs, hreg⟩ := hr
  refine ⟨?_, ?_, ?_⟩
  · rw [hreg]
    exact TypeRegistry.Inv_serve hinv reqs
  · intro m hm1 k hk
    rcases hm with hm | ⟨-, hm⟩
    · rw [hm] at hm1
      rw [hreg]
      exact lt_of_lt_of_le (hkeys m hm1 k hk) (lastTypeID_le_serve _ _)
    · rw [hm] at hm1
      injection hm1 with hm1
      subst hm1
      exact absurd hk (AList.not_mem_empty k)
  · intro m i hm1 hi
    rcases hm with hm | ⟨-, hm⟩
    · rw [hm] at hm1
      rw [hreg] at hi
      cases h0 : TypeRegistry.idOf w.registry.ids C with
      | some j =>
        rw [idOf_serve_of_some h0 reqs] at hi
        injection hi with hi
        subst hi
        exact hC m j hm1 h0
      | none =>
        intro hmem
        have h1 := idOf_serve_new_ge reqs h0 hi
        have h2 := hkeys m hm1 i hmem
        exact absurd h2 (not_lt.mpr h1)
    · rw [hm] at hm1
      injection hm1 with hm1
      subst hm1
      exact AList.not_mem_empty i

/-- The invariant survives the attachment to `E` of a component under another
type. -/
theorem World.NeverAttached.attach {E : ObjId} {C C' : CompType} {w w1 : World}
    {g : GameObject} {c : CompId} (h : World.NeverAttached E C w) (hne : C' ≠ C)
    (hr : w1.registry = (GameObject.GetTypeID w.registry C').2) (hE : w.object E = some g)
    (ho : w1.object E =
      some { g with
        componentMap := g.componentMap.insert (GameObject.GetTypeID w.registry C').1 c }) :
    World.NeverAttached E C w1 := by
  obtain ⟨hinv, hkeys, hC⟩ := h
  have hm0 := World.mapOf_of_object hE
  have hinv1 := TypeRegistry.Inv_GetTypeID hinv C'
  refine ⟨?_, ?_, ?_⟩
  · rw [hr]
    exact hinv1
  · intro m hm1 k hk
    rw [World.mapOf_of_object ho] at hm1
    injection hm1 with hm1
    subst hm1
    rw [hr]
    rcases (AList.mem_insert _).mp hk with hk | hk
    · rw [hk]
      exact GetTypeID_lt_lastTypeID hinv C'
    · exact lt_of_lt_of_le (hkeys _ hm0 k hk) (lastTypeID_le_GetTypeID _ _)
  · intro m i hm1 hi hmem
    rw [World.mapOf_of_object ho] at hm1
    injection hm1 with hm1
    subst hm1
    rw [hr] at hi
    rcases (AList.mem_insert _).mp hmem with hk | hk
    · have hself := idOf_GetTypeID_self w.registry C'
      rw [← hk] at hself
      exact hne (hinv1.2 C' C i hself hi)
    · rw [idOf_GetTypeID_of_ne hne] at hi
      exact hC _ i hm0 hi hk

/-- Every operation other than `AddComponent<C>` on `E` keeps the invariant. -/
theorem Op.step_neverAttached {py : PyRuntime} {E : ObjId} {C : CompType} {w w1 : World}
    {op : Op} (h : World.NeverAttached E C w) (hop : ∀ c, op ≠ Op.AddComponent E C c)
    (hs : op.step py w = some w1) : World.NeverAttached E C w1 := by
  have of_kept : ∀ {wa wb : World}, World.NeverAttached E C wa → World.Kept wa wb →
      World.NeverAttached E C wb := fun ha hk => ha.kept hk.1 (hk.2 E)
  cases op with
  | Create posX posY width height isUI isPermanent =>
    simp only [Op.step, Option.some.injEq] at hs
    subst hs
    exact of_kept h (World.Kept.of_Create w _ _ _ _ _ _)
  | CreateStandard posX posY width height =>
    simp only [Op.step, Option.some.injEq] at hs
    subst hs
    exact of_kept h (World.Kept.of_Create w _ _ _ _ _ _)
  | makeComponent names =>
    cases names with
    | none =>
      simp only [Op.step, Option.some.injEq] at hs
      subst hs
      exact of_kept h (World.Kept.of_eq rfl rfl)
    | some names =>
      simp only [Op.step, Option.some.injEq] at hs
      subst hs
      exact of_kept h (World.Kept.of_eq rfl rfl)
  | AddComponent e C' c =>
    simp only [Op.step] at hs
    obtain ⟨g, comp, wa, hE, hc, hb, hk⟩ := GameObject.AddComponent_world hs
    obtain ⟨wa', hb', hr, ho, hothers, -⟩ := GameObject.AddComponent_beforeInit_spec C' hE hc
    rw [hb] at hb'
    injection hb' with _ hw
    subst hw
    apply of_kept _ hk
    by_cases he : e = E
    · subst he
      have hne : C' ≠ C := by
        rintro rfl
        exact hop c rfl
      exact h.attach hne hr hE ho
    · apply h.kept ⟨[C'], hr⟩
      left
      simp only [World.mapOf, hothers E (fun x => he x.symm)]
  | GetComponent e C' =>
    simp only [Op.step] at hs
    exact of_kept h (GameObject.GetComponent_kept hs)
  | Enable e =>
    simp only [Op.step, GameObject.Enable] at hs
    split at hs
    · exact Option.noConfusion hs
    · rename_i g hg
      simp only [Outcome.world, Option.some.injEq] at hs
      subst hs
      exact of_kept h (World.Kept.of_setObject hg rfl)
  | Disable e =>
    simp only [Op.step, GameObject.Disable] at hs
    split at hs
    · exact Option.noConfusion hs
    · rename_i g hg
      simp only [Outcome.world, Option.some.injEq] at hs
      subst hs
      exact of_kept h (World.Kept.of_setObject hg rfl)
  | script calls =>
    simp only [Op.step] at hs
    exact of_kept h (runPy_kept hs)

theorem run_neverAttached {py : PyRuntime} {E : ObjId} {C : CompType} {ops : List Op}
    {w w1 : World} (h : World.NeverAttached E C w)
    (hno : ∀ c, Op.AddComponent E C c ∉ ops) (hrun : run py ops w = some w1) :
    World.NeverAttached E C w1 := by
  induction ops generalizing w with
  | nil =>
    simp only [run, Option.some.injEq] at hrun
    subst hrun
    exact h
  | cons op rest ih =>
    simp only [run] at hrun
    split at hrun
    · exact Option.noConfusion hrun
    · rename_i wa hstep
      have hop : ∀ c, op ≠ Op.AddComponent E C c := fun c e => hno c (by simp [e])
      have hrest : ∀ c, Op.AddComponent E C c ∉ rest := fun c hc => hno c (by simp [hc])
      exact ih (Op.step_neverAttached h hop hstep) hrest hrun

/-- C3: after any run from program start in which no `AddComponent<C>` was
performed on `E`, whatever else was attached to `E` or to other entities and
whatever scripts ran, `E.GetComponent<C>()` on the live entity `E` returns the
null pointer, and leaves every entity, with its component map, every component
and every bridge handle as they were. -/
theorem C3_GetComponent_null_when_never_attached (py : PyRuntime) (ops : List Op)
    (w : World) (E : ObjId) (C : CompType)
    (hrun : run py ops World.initial = some w)
    (hno : ∀ c, Op.AddComponent E C c ∉ ops) (hlive : (w.object E).isSome = true) :
    ∃ w1, GameObject.GetComponent w E C = .ok none w1 ∧ w1.objects = w.objects ∧
      w1.components = w.components ∧ w1.wrappers = w.wrappers := by
  obtain ⟨g, hE⟩ := Option.isSome_iff_exists.mp hlive
  obtain ⟨hinv, hkeys, hC⟩ := run_neverAttached (World.NeverAttached.at_start E C) hno hrun
  have hm := World.mapOf_of_object hE
  refine ⟨{ w with registry := (GameObject.GetTypeID w.registry C).2 }, ?_, rfl, rfl, rfl⟩
  rw [GameObject.GetComponent_eq C hE]
  have hnone : g.componentMap.lookup (GameObject.GetTypeID w.registry C).1 = none := by
    rw [AList.lookup_eq_none]
    cases h0 : TypeRegistry.idOf w.registry.ids C with
    | some i =>
      rw [GetTypeID_of_idOf_some h0]
      exact hC _ i hm h0
    | none =>
      rw [GetTypeID_of_idOf_none h0]
      intro hmem
      exact absurd (hkeys _ hm _ hmem) (lt_irrefl _)
  rw [hnone]

/-- C3 on the example run: `derived 3` was attached to the second entity only,
and is looked up on the first. -/
theorem C3_witness :
    ∃ w1, GameObject.GetComponent Example.final 0 (CompType.derived 3) = .ok none w1 ∧
      w1.objects = Example.final.objects ∧ w1.components = Example.final.components ∧
      w1.wrappers = Example.final.wrappers :=
  C3_GetComponent_null_when_never_attached Example.py Example.ops Example.final 0
    (CompType.derived 3) rfl (by intro c; simp [Example.ops]) rfl

/-! ## The bridge handle -/

/-- C9: let `X` be a live component whose back-reference is the live entity
`E`, and `H` a bridge handle.  `H.SetScriptComponent(X)` returns and changes no
entity, no component and no type id; afterwards `H.GetGameObject()` returns
`E`, as `X.GetGameObject()` does, and both leave the state as it is.  The same
holds for `GameScript` of `main.cpp`, whose pointers are raw. -/
theorem C9_GetGameObject_after_SetScriptComponent (w : World) (H : WrapId) (X : CompId)
    (E : ObjId) (hH : H < w.wrappers.length)
    (hX : (w.component X).map (fun comp => comp.gameObject) = some (some E))
    (hE : (w.object E).isSome = true)
    (m : MainCpp.World) (H' : Nat) (X' : CompId) (E' : ObjId) (hH' : H' < m.scripts.length)
    (hX' : (m.components[X']?).join = some { gameObject := some E' }) :
    (∃ w1, PyScriptWrapper.SetScriptComponent w H (some X) = .ok () w1 ∧
      w1.objects = w.objects ∧ w1.components = w.components ∧ w1.registry = w.registry ∧
      PyScriptWrapper.GetGameObject w1 H = .ok (some E) w1 ∧
      Component.GetGameObject w1 X = .ok (some E) w1) ∧
    (∃ m1, MainCpp.GameScript.SetScriptComponent m H' (some X') = some m1 ∧
      m1.components = m.components ∧
      MainCpp.GameScript.GetGameObject m1 H' = some (some E') ∧
      MainCpp.Component.GetGameObject m1 X' = some (some E')) := by
  constructor
  · obtain ⟨comp, hcomp, hown⟩ := Option.map_eq_some'.mp hX
    obtain ⟨h0, hh0⟩ : ∃ h0, w.wrappers[H]? = some h0 :=
      ⟨w.wrappers[H], List.getElem?_eq_getElem hH⟩
    have hset : PyScriptWrapper.SetScriptComponent w H (some X) =
        .ok () { w with wrappers := w.wrappers.set H { scriptComp := some X } } := by
      unfold PyScriptWrapper.SetScriptComponent
      rw [hh0]
    have hcomp1 : ({ w with wrappers := w.wrappers.set H { scriptComp := some X } } :
        World).component X = some comp := hcomp
    have hget : Component.GetGameObject
        { w with wrappers := w.wrappers.set H { scriptComp := some X } } X =
        .ok (some E) { w with wrappers := w.wrappers.set H { scriptComp := some X } } := by
      unfold Component.GetGameObject
      rw [hcomp1]
      simp only [hown]
      have hE1 : (({ w with wrappers := w.wrappers.set H { scriptComp := some X } } :
          World).object E).isSome = true := hE
      simp [World.lockObject, hE1]
    refine ⟨_, hset, rfl, rfl, rfl, ?_, hget⟩
    unfold PyScriptWrapper.GetGameObject
    simp only [List.getElem?_set, hH, if_true]
    simp only [World.lockComponent, hcomp1, Option.isSome_some, if_true]
    exact hget
  · obtain ⟨s0, hs0⟩ : ∃ s0, m.scripts[H']? = some s0 :=
      ⟨m.scripts[H'], List.getElem?_eq_getElem hH'⟩
    have hset : MainCpp.GameScript.SetScriptComponent m H' (some X') =
        some { m with scripts := m.scripts.set H' { scriptComp := some X' } } := by
      unfold MainCpp.GameScript.SetScriptComponent
      rw [hs0]
    have hget : MainCpp.Component.GetGameObject
        { m with scripts := m.scripts.set H' { scriptComp := some X' } } X' =
        some (some E') := by
      unfold MainCpp.Component.GetGameObject
      simp only [hX']
    refine ⟨_, hset, rfl, ?_, hget⟩
    unfold MainCpp.GameScript.GetGameObject
    simp only [List.getElem?_set, hH', if_true]
    exact hget

/-- C9 on the example states: a fresh handle is bound to the attached
`GamePlayer` component; in `main.cpp`, the handle to the one component. -/
theorem C9_witness :
    (∃ w1, PyScriptWrapper.SetScriptComponent Example.bridge 1 (some 0) = .ok () w1 ∧
      w1.objects = Example.bridge.objects ∧ w1.components = Example.bridge.components ∧
      w1.registry = Example.bridge.registry ∧
      PyScriptWrapper.GetGameObject w1 1 = .ok (some 0) w1 ∧
      Component.GetGameObject w1 0 = .ok (some 0) w1) ∧
    (∃ m1, MainCpp.GameScript.SetScriptComponent MainCpp.Example.world 0 (some 0) = some m1 ∧
      m1.components = MainCpp.Example.world.components ∧
      MainCpp.GameScript.GetGameObject m1 0 = some (some 0) ∧
      MainCpp.Component.GetGameObject m1 0 = some (some 0)) :=
  C9_GetGameObject_after_SetScriptComponent Example.bridge 1 0 0 (by decide) rfl rfl
    MainCpp.Example.world 0 0 0 (by decide) rfl

/-- C10, the code on the failing input: the handle that the bound constructor
`ScriptBase()` makes at program start, on which `SetScriptComponent` was never
called.  Its empty back-reference locks to the null pointer and `GetGameObject`
calls through that pointer: undefined behaviour, where the claim asks for an
explicit failure that does not dereference.  The sibling
`Component::GetGameObject`, on a component whose back-reference is empty,
returns the null pointer.  `GameScript` of `main.cpp` calls through its
never-assigned pointer likewise. -/
theorem C10_GetGameObject_on_fresh_handle_calls_through_null :
    PyCall.run World.initial PyCall.ScriptBase =
      .ok () { World.initial with wrappers := [PyScriptWrapper.new] } ∧
    ({ World.initial with wrappers := [PyScriptWrapper.new] } : World).lockComponent
      PyScriptWrapper.new.scriptComp = none ∧
    PyScriptWrapper.GetGameObject
      { World.initial with wrappers := [PyScriptWrapper.new] } 0 = .undefined ∧
    Component.GetGameObject
        { World.initial with components := [some { gameObject := none, script := none }] } 0 =
      .ok none
        { World.initial with components := [some { gameObject := none, script := none }] } ∧
    MainCpp.GameScript.GetGameObject MainCpp.Example.world 0 = none :=
  ⟨rfl, rfl, rfl, rfl, rfl⟩

/-! ## Symmetry of the overlap test -/

/-- C11: `IsColliding` is symmetric: for any two entities, whatever their
positions and scales (zero, odd and negative scales included),
`A.IsColliding(B)` and `B.IsColliding(A)` return the same value. -/
theorem C11_IsColliding_symmetric (A B : GameObject) :
    A.IsColliding B = B.IsColliding A := by
  rw [Bool.eq_iff_iff, IsColliding_iff_bounds, IsColliding_iff_bounds]
  constructor
  · rintro ⟨⟨h1, h2⟩, ⟨h3, h4⟩⟩
    refine ⟨⟨?_, ?_⟩, ⟨?_, ?_⟩⟩ <;> omega
  · rintro ⟨⟨h1, h2⟩, ⟨h3, h4⟩⟩
    refine ⟨⟨?_, ?_⟩, ⟨?_, ?_⟩⟩ <;> omega

end Pybind11Teste
